import Mathlib

/-!
Verification of the FreeRDP Interleaved RLE Bitmap Codec
(`src/libfreerdp/codec/interleaved.c`) against its natural-language
specification.

The C functions are shallowly embedded as Lean functions:

* machine integers are `Nat` with explicit `% 2 ^ 32` / `% 2 ^ 64` where
  C arithmetic may wrap (`UINT32`, `size_t`);
* byte memory is a total function `Nat → Nat`; every read of a `BYTE`
  is reduced `% 256`, reflecting the C type of the storage;
* pointers into the input stream are `Nat` offsets, with `pbEnd`
  embedded as the offset `e` one past the last readable byte;
* the out-parameter `UINT32* advance` of `ExtractRunLength` is embedded
  as an `Option Nat`: `some a` when the C code stores `a` through the
  pointer before returning, `none` on the early `return 0` paths that
  leave it unwritten.
-/

set_option maxHeartbeats 1000000
set_option maxRecDepth 100000

/-! ## Order code constants (interleaved.c lines 69-98) -/

def REGULAR_BG_RUN : Nat := 0x00
def MEGA_MEGA_BG_RUN : Nat := 0xF0
def REGULAR_FG_RUN : Nat := 0x01
def MEGA_MEGA_FG_RUN : Nat := 0xF1
def LITE_SET_FG_FG_RUN : Nat := 0x0C
def MEGA_MEGA_SET_FG_RUN : Nat := 0xF6
def LITE_DITHERED_RUN : Nat := 0x0E
def MEGA_MEGA_DITHERED_RUN : Nat := 0xF8
def REGULAR_COLOR_RUN : Nat := 0x03
def MEGA_MEGA_COLOR_RUN : Nat := 0xF3
def REGULAR_FGBG_IMAGE : Nat := 0x02
def MEGA_MEGA_FGBG_IMAGE : Nat := 0xF2
def LITE_SET_FG_FGBG_IMAGE : Nat := 0x0D
def MEGA_MEGA_SET_FGBG_IMAGE : Nat := 0xF7
def REGULAR_COLOR_IMAGE : Nat := 0x04
def MEGA_MEGA_COLOR_IMAGE : Nat := 0xF4
def SPECIAL_FGBG_1 : Nat := 0xF9
def SPECIAL_FGBG_2 : Nat := 0xFA
def SPECIAL_WHITE : Nat := 0xFD
def SPECIAL_BLACK : Nat := 0xFE

def g_MaskRegularRunLength : Nat := 0x1F
def g_MaskLiteRunLength : Nat := 0x0F

/-! ## Opcode reader -/

/-- Embedding of `ExtractCodeId` (interleaved.c lines 104-125): classify a
lead byte into a compression order code. -/
def ExtractCodeId (bOrderHdr : Nat) : Nat :=
  if bOrderHdr &&& 0xC0 ≠ 0xC0 then
    bOrderHdr >>> 5
  else if bOrderHdr &&& 0xF0 = 0xF0 then
    bOrderHdr
  else
    bOrderHdr >>> 4

/-- Embedding of `ExtractRunLength` (interleaved.c lines 130-228).
`mem` is the byte memory, `p` the offset of the order header
(`pbOrderHdr`), `e` the end-of-input offset (`pbEnd`).  The result is
the returned run length paired with the value stored through `advance`
(`none` when the C function returns without writing it). -/
def ExtractRunLength (code : Nat) (mem : Nat → Nat) (p e : Nat) : Nat × Option Nat :=
  if p ≥ e then (0, none)
  else if code = REGULAR_FGBG_IMAGE then
    let runLength := mem p % 256 &&& g_MaskRegularRunLength
    if runLength = 0 then
      if p + 1 ≥ e then (0, none)
      else (mem (p + 1) % 256 + 1, some 2)
    else (runLength * 8, some 1)
  else if code = LITE_SET_FG_FGBG_IMAGE then
    let runLength := mem p % 256 &&& g_MaskLiteRunLength
    if runLength = 0 then
      if p + 1 ≥ e then (0, none)
      else (mem (p + 1) % 256 + 1, some 2)
    else (runLength * 8, some 1)
  else if code = REGULAR_BG_RUN ∨ code = REGULAR_FG_RUN ∨ code = REGULAR_COLOR_RUN ∨
      code = REGULAR_COLOR_IMAGE then
    let runLength := mem p % 256 &&& g_MaskRegularRunLength
    if runLength = 0 then
      if p + 1 ≥ e then (0, none)
      else (mem (p + 1) % 256 + 32, some 2)
    else (runLength, some 1)
  else if code = LITE_SET_FG_FG_RUN ∨ code = LITE_DITHERED_RUN then
    let runLength := mem p % 256 &&& g_MaskLiteRunLength
    if runLength = 0 then
      if p + 1 ≥ e then (0, none)
      else (mem (p + 1) % 256 + 16, some 2)
    else (runLength, some 1)
  else if code = MEGA_MEGA_BG_RUN ∨ code = MEGA_MEGA_FG_RUN ∨ code = MEGA_MEGA_SET_FG_RUN ∨
      code = MEGA_MEGA_DITHERED_RUN ∨ code = MEGA_MEGA_COLOR_RUN ∨ code = MEGA_MEGA_FGBG_IMAGE ∨
      code = MEGA_MEGA_SET_FGBG_IMAGE ∨ code = MEGA_MEGA_COLOR_IMAGE then
    if p + 2 ≥ e then (0, none)
    else ((mem (p + 1) % 256) ||| ((mem (p + 2) % 256) <<< 8), some 3)
  else (0, some 1)

/-! ## ensure_capacity -/

/-- Embedding of `ensure_capacity` (interleaved.c lines 230-235).
Pointers are `Nat` addresses below `2 ^ 64`; the pointer difference
`(uintptr_t)end - (uintptr_t)start` wraps modulo `2 ^ 64`, as does the
`size_t` product `size * base`. -/
def ensure_capacity (start endp size base : Nat) : Bool :=
  let available := (endp + 2 ^ 64 - start) % 2 ^ 64
  (decide (size * base % 2 ^ 64 ≤ available)) && decide (start ≤ endp)

/-! ## Claim C2 -/

/-- Claim C2: `ExtractCodeId` classifies every lead byte exactly as §4.1
specifies: if `(b &&& 0xC0) ≠ 0xC0` the order is REGULAR and the opcode is
`b >>> 5`; otherwise if `(b &&& 0xF0) = 0xF0` the order is MEGA/SPECIAL and
the opcode is `b` itself; otherwise the order is LITE and the opcode is
`b >>> 4`. -/
theorem extractCodeId_classification (b : Nat) (hb : b < 256) :
    (b &&& 0xC0 ≠ 0xC0 → ExtractCodeId b = b >>> 5) ∧
    (b &&& 0xC0 = 0xC0 → b &&& 0xF0 = 0xF0 → ExtractCodeId b = b) ∧
    (b &&& 0xC0 = 0xC0 → b &&& 0xF0 ≠ 0xF0 → ExtractCodeId b = b >>> 4) := by
  revert hb
  revert b
  decide

/-- Witness for `extractCodeId_classification` at the concrete lead byte
`0x27`: a REGULAR-class byte whose opcode is `0x27 >>> 5 = 1`. -/
theorem extractCodeId_classification_witness : ExtractCodeId 0x27 = 0x27 >>> 5 :=
  (extractCodeId_classification 0x27 (by decide)).1 (by decide)

/-! ## Claim C4 -/

/-- Claim C4: `ensure_capacity start end size base` returns `true` iff
`start ≤ end` and the available byte count `end - start` is at least
`size * base`, for every `size` and `base` whose product stays inside the
`size_t` range; and it returns `false` whenever `start > end`. -/
theorem ensure_capacity_spec (start endp size base : Nat) :
    (start < 2 ^ 64 → endp < 2 ^ 64 → size * base < 2 ^ 64 →
      (ensure_capacity start endp size base = true ↔
        start ≤ endp ∧ size * base ≤ endp - start)) ∧
    (endp < start → ensure_capacity start endp size base = false) := by
  have h64 : (2 : Nat) ^ 64 = 18446744073709551616 := by norm_num
  unfold ensure_capacity
  rw [h64]
  constructor
  · intro hs he hm
    simp only [Bool.and_eq_true, decide_eq_true_eq]
    omega
  · intro hlt
    simp only [Bool.and_eq_false_iff, decide_eq_false_iff_not]
    omega

/-- Witness for `ensure_capacity_spec` at `start = 0`, `end = 10`,
`size = 2`, `base = 3`. -/
theorem ensure_capacity_spec_witness : ensure_capacity 0 10 2 3 = true :=
  ((ensure_capacity_spec 0 10 2 3).1 (by norm_num) (by norm_num) (by norm_num)).mpr
    (by norm_num)

/-! ## Pixel formats and flip modes

Modelled from the spec: the `PIXEL_FORMAT_*` and `FREERDP_FLIP_*`
identifiers come from FreeRDP headers that are not under `src/`; only
their distinctness matters here, so they are embedded as inductive
constructors. -/

/-- Modelled from the spec: the pixel-format identifiers passed between
`interleaved_decompress` / `interleaved_compress` and the surface-copy
collaborator (`PIXEL_FORMAT_RGB8`, `_RGB15`, `_RGB16`, `_BGR24`,
`_BGRX32` from a header not under `src/`). -/
inductive PixelFormat
  | RGB8
  | RGB15
  | RGB16
  | BGR24
  | BGRX32
deriving DecidableEq

/-- Modelled from the spec: the flip-mode argument of the surface copy
(`FREERDP_FLIP_NONE` / `FREERDP_FLIP_VERTICAL` from a header not under
`src/`). -/
inductive FlipMode
  | noFlip
  | vertical
deriving DecidableEq

/-! ## Context lifecycle -/

/-- Embedding of `struct S_BITMAP_INTERLEAVED_CONTEXT`
(interleaved.c lines 327-335).  The `wStream* bts` member is not inspected by
this file and is embedded as a `Nat` handle. -/
structure S_BITMAP_INTERLEAVED_CONTEXT where
  Compressor : Bool
  TempSize : Nat
  TempBuffer : List Nat
  bts : Nat
deriving DecidableEq

/-- Embedding of `bitmap_interleaved_context_reset`
(interleaved.c lines 493-499): a null context yields `FALSE`, any other
context yields `TRUE`; the function body touches no context state. -/
def bitmap_interleaved_context_reset :
    Option S_BITMAP_INTERLEAVED_CONTEXT → Bool × Option S_BITMAP_INTERLEAVED_CONTEXT
  | none => (false, none)
  | some ctx => (true, some ctx)

/-- Iterated application of `bitmap_interleaved_context_reset` to the
context, discarding the returned status each round. -/
def resetIter : Nat → Option S_BITMAP_INTERLEAVED_CONTEXT →
    Option S_BITMAP_INTERLEAVED_CONTEXT
  | 0, c => c
  | n + 1, c => resetIter n (bitmap_interleaved_context_reset c).2

/-! ## Claim C9 -/

/-- Claim C9: `bitmap_interleaved_context_reset` is idempotent: for every
non-null context it returns `TRUE` and leaves the context state
(`TempSize`, `TempBuffer`, `bts`, `Compressor`) unchanged, so applying it
any number of times leaves the context as fresh; for a null context it
returns `FALSE`. -/
theorem context_reset_idempotent :
    (∀ ctx : S_BITMAP_INTERLEAVED_CONTEXT,
      bitmap_interleaved_context_reset (some ctx) = (true, some ctx)) ∧
    (∀ (n : Nat) (ctx : S_BITMAP_INTERLEAVED_CONTEXT),
      resetIter n (some ctx) = some ctx) ∧
    bitmap_interleaved_context_reset none = (false, none) := by
  refine ⟨fun ctx => rfl, fun n => ?_, rfl⟩
  induction n with
  | zero => intro ctx; rfl
  | succ k ih => intro ctx; exact ih ctx

/-! ## Compressor geometry and depth checks -/

/-- Embedding of the `switch (bpp)` of `interleaved_compress`
(interleaved.c lines 452-468): the destination format selected for the
staging copy, or `none` for the `default: return FALSE` branch. -/
def compress_dst_format (bpp : Nat) : Option PixelFormat :=
  if bpp = 24 then some PixelFormat.BGRX32
  else if bpp = 16 then some PixelFormat.RGB16
  else if bpp = 15 then some PixelFormat.RGB15
  else none

/-- Embedding of the argument-check prefix of `interleaved_compress`
(interleaved.c lines 431-468), the part of the function that runs before
any output is produced: the zero-dimension check, the width-multiple-of-4
check, the 64-pixel bound, then the depth switch.  `none` means the C
function returns `FALSE` there. -/
def interleaved_compress_checks (nWidth nHeight bpp : Nat) : Option PixelFormat :=
  if nWidth = 0 ∨ nHeight = 0 then none
  else if nWidth % 4 ≠ 0 then none
  else if 64 < nWidth ∨ 64 < nHeight then none
  else compress_dst_format bpp

/-! ## Claim C7 -/

/-- Claim C7: `interleaved_compress` fails (returns `FALSE`) before
producing any output whenever the geometry is out of range: `nWidth` not
divisible by 4, `nWidth > 64`, `nHeight > 64`, or either dimension equal
to 0.  The embedded check prefix returns `none` in each such case, for
every `bpp`. -/
theorem compress_rejects_bad_geometry (nWidth nHeight bpp : Nat)
    (h : nWidth % 4 ≠ 0 ∨ 64 < nWidth ∨ 64 < nHeight ∨ nWidth = 0 ∨ nHeight = 0) :
    interleaved_compress_checks nWidth nHeight bpp = none := by
  unfold interleaved_compress_checks
  split_ifs with h1 h2 h3
  · rfl
  · rfl
  · rfl
  · exfalso; omega

/-- Witness for `compress_rejects_bad_geometry` at width 65 (not a
multiple of 4 and above the 64-pixel bound). -/
theorem compress_rejects_bad_geometry_witness :
    interleaved_compress_checks 65 1 24 = none :=
  compress_rejects_bad_geometry 65 1 24 (by decide)

/-! ## Claim C5 (corrected) -/

/-- Claim C5 counterexample: the claim states that `interleaved_compress`
succeeds past its depth check for `bpp = 8`, but the `switch (bpp)` at
interleaved.c lines 452-468 has cases only for 24, 16 and 15 and hits
`default: return FALSE` at 8: even with valid geometry (width 4, height
1) the function fails for `bpp = 8`. -/
theorem compress_depth_rejects_8bpp :
    compress_dst_format 8 = none ∧ interleaved_compress_checks 4 1 8 = none := by
  decide

/-- Claim C5 (amended): `interleaved_compress` proceeds past its depth
check exactly for `bpp ∈ {15, 16, 24}` and fails (returns `FALSE`) for
every other `bpp`, including 8. -/
theorem compress_depth_check_supported (bpp : Nat) :
    ((compress_dst_format bpp).isSome = true ↔ bpp = 15 ∨ bpp = 16 ∨ bpp = 24) ∧
    ((interleaved_compress_checks 4 1 bpp).isSome = true ↔
      bpp = 15 ∨ bpp = 16 ∨ bpp = 24) := by
  have hform : (compress_dst_format bpp).isSome = true ↔
      bpp = 15 ∨ bpp = 16 ∨ bpp = 24 := by
    unfold compress_dst_format
    split_ifs with h1 h2 h3 <;> simp_all
  refine ⟨hform, ?_⟩
  show (compress_dst_format bpp).isSome = true ↔ _
  exact hform

/-- Witness for `compress_depth_check_supported` at `bpp = 15`. -/
theorem compress_depth_check_supported_witness :
    (compress_dst_format 15).isSome = true :=
  (compress_depth_check_supported 15).1.mpr (Or.inl rfl)

/-! ## Decompressor dispatch -/

/-- Signature of the depth-specialized scanline decoders
`RleDecompress8to8` / `RleDecompress16to16` / `RleDecompress24to24`
(generated from `include/bitmap.c`, which is not under `src/`): from
source bytes, source size, scanline stride, width and height to the
decoded tile bytes, or `none` on failure.  `interleaved_decompress` is
embedded parametrically over them. -/
def RleFn : Type := List Nat → Nat → Nat → Nat → Nat → Option (List Nat)

/-- Cut the flat temporary buffer into `rows` scanlines of `stride`
bytes each, the layout `interleaved_decompress` hands to the surface
copy. -/
def rowsOf (stride : Nat) : Nat → List Nat → List (List Nat)
  | 0, _ => []
  | r + 1, l => l.take stride :: rowsOf stride r (l.drop stride)

/-- Modelled from the spec: `freerdp_image_copy` (not under `src/`)
restricted to what the claims need — §6 states the destination surface is
populated with the tile vertically flipped, the top scanline of the
decoded tile written to the bottom-most output row; `FREERDP_FLIP_NONE`
preserves row order. -/
def freerdp_image_copy (flip : FlipMode) (rows : List (List Nat)) : List (List Nat) :=
  match flip with
  | FlipMode.vertical => rows.reverse
  | FlipMode.noFlip => rows

/-- Embedding of the first `switch (bpp)` of `interleaved_decompress`
(interleaved.c lines 350-375): the scanline byte count (`UINT32`
arithmetic, hence `% 2 ^ 32`) and the `SrcFormat` chosen for the given
depth; `none` for the `default: return FALSE` branch. -/
def interleavedScanlineFormat (bpp nSrcWidth : Nat) : Option (Nat × PixelFormat) :=
  if bpp = 24 then some (nSrcWidth * 3 % 2 ^ 32, PixelFormat.BGR24)
  else if bpp = 16 then some (nSrcWidth * 2 % 2 ^ 32, PixelFormat.RGB16)
  else if bpp = 15 then some (nSrcWidth * 2 % 2 ^ 32, PixelFormat.RGB15)
  else if bpp = 8 then some (nSrcWidth, PixelFormat.RGB8)
  else none

/-- The scratch-buffer requirement `BufferSize = scanline * nSrcHeight`
of `interleaved_decompress` (interleaved.c line 377), computed in
`UINT32` arithmetic on top of `interleavedScanlineFormat`; `none` when
the depth switch already failed. -/
def interleavedBufferSize (bpp nSrcWidth nSrcHeight : Nat) : Option Nat :=
  (interleavedScanlineFormat bpp nSrcWidth).map (fun sf => sf.1 * nSrcHeight % 2 ^ 32)

/-- Everything `interleaved_decompress` passes onward after a successful
decode: the decoded tile bytes in the temporary buffer, the scanline
stride, the `SrcFormat` handed to the surface copy, the flip mode handed
to the surface copy, and the destination rows the copy produces. -/
structure DecompressResult where
  temp : List Nat
  scanline : Nat
  srcFormat : PixelFormat
  flip : FlipMode
  dest : List (List Nat)
deriving DecidableEq


/-- Embedding of the second `switch (bpp)` of `interleaved_decompress`
(interleaved.c lines 388-414): select the depth-specialized scanline
decoder; the `default` branch (unreachable after the first switch)
decodes nothing. -/
def rleDispatch (rle8 rle16 rle24 : RleFn) (bpp : Nat) : RleFn :=
  if bpp = 24 then rle24
  else if bpp = 16 ∨ bpp = 15 then rle16
  else if bpp = 8 then rle8
  else fun _ _ _ _ _ => none

/-- Embedding of `interleaved_decompress` (interleaved.c lines 337-419),
parametric in the three scanline decoders (whose bodies live in
`include/bitmap.c`, outside `src/`) and in the allocator outcome
(`allocOk s` tells whether `_aligned_realloc` to `s` bytes succeeds).
`tempSize` is the context's current `TempSize`; a fresh context has
`64 * 64 * 4`.  The context and both data pointers are taken non-null,
and the destination offsets/clipping are absorbed into the modelled
surface copy. -/
def interleaved_decompress (tempSize : Nat) (allocOk : Nat → Bool)
    (rle8 rle16 rle24 : RleFn) (bpp : Nat) (src : List Nat)
    (srcSize nSrcWidth nSrcHeight : Nat) : Option DecompressResult :=
  (interleavedScanlineFormat bpp nSrcWidth).bind fun sf =>
    let scanline := sf.1
    let bufferSize := scanline * nSrcHeight % 2 ^ 32
    if tempSize < bufferSize && !allocOk bufferSize then none
    else
      (rleDispatch rle8 rle16 rle24 bpp src srcSize scanline nSrcWidth nSrcHeight).bind
        fun temp =>
          some ⟨temp, scanline, sf.2, FlipMode.vertical,
            freerdp_image_copy FlipMode.vertical (rowsOf scanline nSrcHeight temp)⟩

/-- Projection of a `DecompressResult` that forgets the `SrcFormat`,
used to state that two depths agree on everything else. -/
def eraseFormat (r : DecompressResult) : List Nat × Nat × FlipMode × List (List Nat) :=
  (r.temp, r.scanline, r.flip, r.dest)

/-! ## Claim C6 -/

/-- Claim C6: for every input, `interleaved_decompress` at `bpp = 15` and
at `bpp = 16` selects the identical scanline decoder
(`RleDecompress16to16`) over the identical scanline layout of
`nSrcWidth * 2` bytes, so the decoded tile bytes placed in the temporary
buffer (and everything derived from them) are equal for the two depths;
the results differ only in the `SrcFormat` passed to the downstream
surface copy, `RGB15` versus `RGB16`. -/
theorem decompress_15_16_same_decoder (tempSize : Nat) (allocOk : Nat → Bool)
    (rle8 rle16 rle24 : RleFn) (src : List Nat) (srcSize nSrcWidth nSrcHeight : Nat) :
    rleDispatch rle8 rle16 rle24 15 = rle16 ∧
    rleDispatch rle8 rle16 rle24 16 = rle16 ∧
    (interleaved_decompress tempSize allocOk rle8 rle16 rle24 15 src srcSize
        nSrcWidth nSrcHeight).map eraseFormat =
      (interleaved_decompress tempSize allocOk rle8 rle16 rle24 16 src srcSize
        nSrcWidth nSrcHeight).map eraseFormat ∧
    (∀ r, interleaved_decompress tempSize allocOk rle8 rle16 rle24 15 src srcSize
        nSrcWidth nSrcHeight = some r → r.srcFormat = PixelFormat.RGB15) ∧
    (∀ r, interleaved_decompress tempSize allocOk rle8 rle16 rle24 16 src srcSize
        nSrcWidth nSrcHeight = some r → r.srcFormat = PixelFormat.RGB16) := by
  have hd15 : rleDispatch rle8 rle16 rle24 15 = rle16 := rfl
  have hd16 : rleDispatch rle8 rle16 rle24 16 = rle16 := rfl
  refine ⟨hd15, hd16, ?_⟩
  unfold interleaved_decompress interleavedScanlineFormat
  rw [hd15, hd16]
  norm_num
  refine ⟨?_, ?_, ?_⟩
  · split_ifs with h
    · rfl
    · cases rle16 src srcSize (nSrcWidth * 2 % 4294967296) nSrcWidth nSrcHeight <;> rfl
  · intro r _
    cases rle16 src srcSize (nSrcWidth * 2 % 4294967296) nSrcWidth nSrcHeight with
    | none => intro hr; exact Option.noConfusion hr
    | some temp =>
      intro hr
      injection hr with h'
      subst h'
      rfl
  · intro r _
    cases rle16 src srcSize (nSrcWidth * 2 % 4294967296) nSrcWidth nSrcHeight with
    | none => intro hr; exact Option.noConfusion hr
    | some temp =>
      intro hr
      injection hr with h'
      subst h'
      rfl

/-- Witness for `decompress_15_16_same_decoder` at a concrete 2×1 tile
with a stub 16-bit decoder. -/
theorem decompress_15_16_same_decoder_witness :
    (interleaved_decompress 16384 (fun _ => true) (fun _ _ _ _ _ => none)
        (fun _ _ _ _ _ => some [1, 2, 3, 4]) (fun _ _ _ _ _ => none) 15 [] 0 2 1).map
        eraseFormat =
      (interleaved_decompress 16384 (fun _ => true) (fun _ _ _ _ _ => none)
        (fun _ _ _ _ _ => some [1, 2, 3, 4]) (fun _ _ _ _ _ => none) 16 [] 0 2 1).map
        eraseFormat :=
  (decompress_15_16_same_decoder 16384 (fun _ => true) (fun _ _ _ _ _ => none)
    (fun _ _ _ _ _ => some [1, 2, 3, 4]) (fun _ _ _ _ _ => none) [] 0 2 1).2.2.1

/-! ## Claim C8 -/

/-- Claim C8: on every successful decode, `interleaved_decompress` hands
the decoded tile to the surface copy with the vertical-flip mode, so the
destination rows are the decoded scanlines in reverse order and the top
scanline of the decoded tile lands on the bottom-most output row; for
any unsupported `bpp` (not 8, 15, 16 or 24) it instead fails with
`FALSE` (`none`) before touching the destination. -/
theorem decompress_flips_vertically (tempSize : Nat) (allocOk : Nat → Bool)
    (rle8 rle16 rle24 : RleFn) (bpp : Nat) (src : List Nat)
    (srcSize nSrcWidth nSrcHeight : Nat) :
    (bpp ≠ 8 → bpp ≠ 15 → bpp ≠ 16 → bpp ≠ 24 →
      interleaved_decompress tempSize allocOk rle8 rle16 rle24 bpp src srcSize
        nSrcWidth nSrcHeight = none) ∧
    (∀ r, interleaved_decompress tempSize allocOk rle8 rle16 rle24 bpp src srcSize
        nSrcWidth nSrcHeight = some r →
      r.flip = FlipMode.vertical ∧
      r.dest = (rowsOf r.scanline nSrcHeight r.temp).reverse ∧
      (0 < nSrcHeight → r.dest.getLast? = some (r.temp.take r.scanline))) := by
  constructor
  · intro h8 h15 h16 h24
    unfold interleaved_decompress interleavedScanlineFormat
    rw [if_neg h24, if_neg h16, if_neg h15, if_neg h8]
    rfl
  · intro r hr
    simp only [interleaved_decompress, Option.bind_eq_some] at hr
    obtain ⟨sf, hsf, hr⟩ := hr
    split_ifs at hr with hc
    simp only [Option.bind_eq_some] at hr
    obtain ⟨temp, hdec, hr⟩ := hr
    injection hr with h'
    subst h'
    refine ⟨rfl, rfl, ?_⟩
    intro hh
    show ((rowsOf sf.1 nSrcHeight temp).reverse).getLast? = some (temp.take sf.1)
    rw [List.getLast?_reverse]
    cases nSrcHeight with
    | zero => omega
    | succ k => rfl

/-- Concrete decode result used to witness `decompress_flips_vertically`:
what the model returns for a 2×1 tile at 8 bpp through a stub decoder
producing the scanline `[7, 9]`. -/
def sampleFlipResult : DecompressResult :=
  ⟨[7, 9], 2, PixelFormat.RGB8, FlipMode.vertical, [[7, 9]]⟩

/-- Witness for `decompress_flips_vertically`: the concrete 2×1 tile
result `sampleFlipResult` satisfies the flip properties. -/
theorem decompress_flips_vertically_witness :
    sampleFlipResult.flip = FlipMode.vertical ∧
    sampleFlipResult.dest = (rowsOf sampleFlipResult.scanline 1 sampleFlipResult.temp).reverse ∧
    (0 < 1 → sampleFlipResult.dest.getLast? =
      some (sampleFlipResult.temp.take sampleFlipResult.scanline)) :=
  (decompress_flips_vertically 16384 (fun _ => true) (fun _ _ _ _ _ => some [7, 9])
    (fun _ _ _ _ _ => none) (fun _ _ _ _ _ => none) 8 [] 0 2 1).2 sampleFlipResult rfl

/-! ## Claim C10 -/

/-- Claim C10: `interleaved_decompress` performs no check that
`nSrcWidth` and `nSrcHeight` are at most 64: `BufferSize` is
`scanline * nSrcHeight` in 32-bit modular arithmetic, so at
`nSrcWidth = 65536`, `nSrcHeight = 65536`, `bpp = 8` (one byte per
pixel) the computed `BufferSize` is `0`, strictly less than the true
product `65536 * 65536 * 1 = 2 ^ 32`, and the decode still proceeds past
the buffer-size computation: no dimension guard rejects the oversized
tile. -/
theorem decompress_buffer_size_wraps :
    (∀ nSrcWidth nSrcHeight : Nat,
      interleavedBufferSize 8 nSrcWidth nSrcHeight =
        some (nSrcWidth * nSrcHeight % 2 ^ 32)) ∧
    interleavedBufferSize 8 65536 65536 = some 0 ∧
    (0 : Nat) < 65536 * 65536 * 1 ∧
    (interleaved_decompress 16384 (fun _ => true) (fun _ _ _ _ _ => some [])
      (fun _ _ _ _ _ => none) (fun _ _ _ _ _ => none) 8 [] 0 65536 65536).isSome = true := by
  refine ⟨fun w h => rfl, by decide, by norm_num, rfl⟩

/-! ## Run-length extraction lemmas -/

/-- Composing two bytes as `b1 | (b2 << 8)` (the MEGA length read at
interleaved.c line 221) equals the 16-bit value `b1 + 256 * b2`,
least-significant byte first. -/
theorem byte_lor_shift : ∀ x : Nat, x < 256 → ∀ y : Nat, y < 256 →
    x ||| y <<< 8 = x + 256 * y := by
  decide

/-- Reduction of `ExtractRunLength` on the `REGULAR_FGBG_IMAGE` case for
an in-bounds header byte. -/
theorem erl_fgbg_reg (mem : Nat → Nat) (p e : Nat) (hpe : p < e) :
    ExtractRunLength REGULAR_FGBG_IMAGE mem p e =
      (if mem p % 256 &&& g_MaskRegularRunLength = 0 then
        (if p + 1 ≥ e then (0, none) else (mem (p + 1) % 256 + 1, some 2))
      else ((mem p % 256 &&& g_MaskRegularRunLength) * 8, some 1)) := by
  unfold ExtractRunLength
  rw [if_neg (show ¬ p ≥ e by omega)]
  rfl

/-- Reduction of `ExtractRunLength` on the `LITE_SET_FG_FGBG_IMAGE` case
for an in-bounds header byte. -/
theorem erl_fgbg_lite (mem : Nat → Nat) (p e : Nat) (hpe : p < e) :
    ExtractRunLength LITE_SET_FG_FGBG_IMAGE mem p e =
      (if mem p % 256 &&& g_MaskLiteRunLength = 0 then
        (if p + 1 ≥ e then (0, none) else (mem (p + 1) % 256 + 1, some 2))
      else ((mem p % 256 &&& g_MaskLiteRunLength) * 8, some 1)) := by
  unfold ExtractRunLength
  rw [if_neg (show ¬ p ≥ e by omega)]
  rfl

/-- Reduction of `ExtractRunLength` on the four REGULAR run/image cases
for an in-bounds header byte. -/
theorem erl_run_reg (code : Nat) (mem : Nat → Nat) (p e : Nat)
    (hc : code = REGULAR_BG_RUN ∨ code = REGULAR_FG_RUN ∨ code = REGULAR_COLOR_RUN ∨
      code = REGULAR_COLOR_IMAGE) (hpe : p < e) :
    ExtractRunLength code mem p e =
      (if mem p % 256 &&& g_MaskRegularRunLength = 0 then
        (if p + 1 ≥ e then (0, none) else (mem (p + 1) % 256 + 32, some 2))
      else (mem p % 256 &&& g_MaskRegularRunLength, some 1)) := by
  rcases hc with h | h | h | h <;> subst h <;> unfold ExtractRunLength <;>
    rw [if_neg (show ¬ p ≥ e by omega)] <;> rfl

/-- Reduction of `ExtractRunLength` on the two LITE run cases for an
in-bounds header byte. -/
theorem erl_run_lite (code : Nat) (mem : Nat → Nat) (p e : Nat)
    (hc : code = LITE_SET_FG_FG_RUN ∨ code = LITE_DITHERED_RUN) (hpe : p < e) :
    ExtractRunLength code mem p e =
      (if mem p % 256 &&& g_MaskLiteRunLength = 0 then
        (if p + 1 ≥ e then (0, none) else (mem (p + 1) % 256 + 16, some 2))
      else (mem p % 256 &&& g_MaskLiteRunLength, some 1)) := by
  rcases hc with h | h <;> subst h <;> unfold ExtractRunLength <;>
    rw [if_neg (show ¬ p ≥ e by omega)] <;> rfl

/-- Reduction of `ExtractRunLength` on the eight MEGA cases for an
in-bounds header byte. -/
theorem erl_mega (code : Nat) (mem : Nat → Nat) (p e : Nat)
    (hc : code = MEGA_MEGA_BG_RUN ∨ code = MEGA_MEGA_FG_RUN ∨ code = MEGA_MEGA_SET_FG_RUN ∨
      code = MEGA_MEGA_DITHERED_RUN ∨ code = MEGA_MEGA_COLOR_RUN ∨
      code = MEGA_MEGA_FGBG_IMAGE ∨ code = MEGA_MEGA_SET_FGBG_IMAGE ∨
      code = MEGA_MEGA_COLOR_IMAGE) (hpe : p < e) :
    ExtractRunLength code mem p e =
      (if p + 2 ≥ e then (0, none)
      else ((mem (p + 1) % 256) ||| ((mem (p + 2) % 256) <<< 8), some 3)) := by
  rcases hc with h | h | h | h | h | h | h | h <;> subst h <;> unfold ExtractRunLength <;>
    rw [if_neg (show ¬ p ≥ e by omega)] <;> rfl

/-! ## Claim C1 -/

/-- Claim C1: for every lead byte and every opcode class,
`ExtractRunLength` computes the run length per the §4.1 table: for
REGULAR BG/FG/COLOR-RUN/COLOR-IMAGE the length is the low 5 bits of the
lead byte, and when that field is 0 it is the next byte `n` plus 32; for
LITE SET-FG-RUN/DITHERED-RUN it is the low 4 bits, and when 0 it is `n`
plus 16; for REGULAR FGBG-IMAGE and LITE SET-FG-FGBG-IMAGE a nonzero
field yields `field * 8` and a zero field yields `n + 1`; for MEGA
orders the length is the 16-bit value of the two following bytes,
least-significant byte first; and the reported advance is 1 plus the
number of extension bytes consumed (1, 2, or 3). -/
theorem extractRunLength_table (mem : Nat → Nat) (p e : Nat) (hpe : p < e) :
    (∀ code, code = REGULAR_BG_RUN ∨ code = REGULAR_FG_RUN ∨ code = REGULAR_COLOR_RUN ∨
        code = REGULAR_COLOR_IMAGE →
      (mem p % 256 &&& 0x1F ≠ 0 →
        ExtractRunLength code mem p e = (mem p % 256 &&& 0x1F, some 1)) ∧
      (mem p % 256 &&& 0x1F = 0 → p + 1 < e →
        ExtractRunLength code mem p e = (mem (p + 1) % 256 + 32, some 2))) ∧
    (∀ code, code = LITE_SET_FG_FG_RUN ∨ code = LITE_DITHERED_RUN →
      (mem p % 256 &&& 0x0F ≠ 0 →
        ExtractRunLength code mem p e = (mem p % 256 &&& 0x0F, some 1)) ∧
      (mem p % 256 &&& 0x0F = 0 → p + 1 < e →
        ExtractRunLength code mem p e = (mem (p + 1) % 256 + 16, some 2))) ∧
    ((mem p % 256 &&& 0x1F ≠ 0 →
        ExtractRunLength REGULAR_FGBG_IMAGE mem p e =
          ((mem p % 256 &&& 0x1F) * 8, some 1)) ∧
      (mem p % 256 &&& 0x1F = 0 → p + 1 < e →
        ExtractRunLength REGULAR_FGBG_IMAGE mem p e =
          (mem (p + 1) % 256 + 1, some 2))) ∧
    ((mem p % 256 &&& 0x0F ≠ 0 →
        ExtractRunLength LITE_SET_FG_FGBG_IMAGE mem p e =
          ((mem p % 256 &&& 0x0F) * 8, some 1)) ∧
      (mem p % 256 &&& 0x0F = 0 → p + 1 < e →
        ExtractRunLength LITE_SET_FG_FGBG_IMAGE mem p e =
          (mem (p + 1) % 256 + 1, some 2))) ∧
    (∀ code, code = MEGA_MEGA_BG_RUN ∨ code = MEGA_MEGA_FG_RUN ∨
        code = MEGA_MEGA_SET_FG_RUN ∨ code = MEGA_MEGA_DITHERED_RUN ∨
        code = MEGA_MEGA_COLOR_RUN ∨ code = MEGA_MEGA_FGBG_IMAGE ∨
        code = MEGA_MEGA_SET_FGBG_IMAGE ∨ code = MEGA_MEGA_COLOR_IMAGE →
      p + 2 < e →
        ExtractRunLength code mem p e =
          (mem (p + 1) % 256 + 256 * (mem (p + 2) % 256), some 3)) := by
  refine ⟨?_, ?_, ?_, ?_, ?_⟩
  · intro code hc
    rw [erl_run_reg code mem p e hc hpe]
    simp only [g_MaskRegularRunLength]
    constructor
    · intro hnz
      rw [if_neg hnz]
    · intro hz h1e
      rw [if_pos hz, if_neg (show ¬ p + 1 ≥ e by omega)]
  · intro code hc
    rw [erl_run_lite code mem p e hc hpe]
    simp only [g_MaskLiteRunLength]
    constructor
    · intro hnz
      rw [if_neg hnz]
    · intro hz h1e
      rw [if_pos hz, if_neg (show ¬ p + 1 ≥ e by omega)]
  · rw [erl_fgbg_reg mem p e hpe]
    simp only [g_MaskRegularRunLength]
    constructor
    · intro hnz
      rw [if_neg hnz]
    · intro hz h1e
      rw [if_pos hz, if_neg (show ¬ p + 1 ≥ e by omega)]
  · rw [erl_fgbg_lite mem p e hpe]
    simp only [g_MaskLiteRunLength]
    constructor
    · intro hnz
      rw [if_neg hnz]
    · intro hz h1e
      rw [if_pos hz, if_neg (show ¬ p + 1 ≥ e by omega)]
  · intro code hc h2e
    rw [erl_mega code mem p e hc hpe, if_neg (show ¬ p + 2 ≥ e by omega),
      byte_lor_shift (mem (p + 1) % 256) (Nat.mod_lt _ (by norm_num))
        (mem (p + 2) % 256) (Nat.mod_lt _ (by norm_num))]

/-- Witness for `extractRunLength_table`: a MEGA background run whose
two length bytes `0x34 0x12` give run length `0x1234` and advance 3. -/
theorem extractRunLength_table_witness :
    ExtractRunLength MEGA_MEGA_BG_RUN (fun a => [0xF0, 0x34, 0x12].getD a 0) 0 3 =
      ((fun a => [0xF0, 0x34, 0x12].getD a 0) 1 % 256 +
        256 * ((fun a => [0xF0, 0x34, 0x12].getD a 0) 2 % 256), some 3) :=
  (extractRunLength_table (fun a => [0xF0, 0x34, 0x12].getD a 0) 0 3
    (by norm_num)).2.2.2.2 MEGA_MEGA_BG_RUN (Or.inl rfl) (by norm_num)

/-- `ExtractRunLength` reads no byte at or beyond the end-of-input
offset: its result is unchanged under any modification of the memory at
addresses `≥ e`. -/
theorem extractRunLength_agree (code : Nat) (mem memB : Nat → Nat) (p e : Nat)
    (h : ∀ a, a < e → mem a = memB a) :
    ExtractRunLength code mem p e = ExtractRunLength code memB p e := by
  by_cases hpe : p ≥ e
  · unfold ExtractRunLength
    rw [if_pos hpe, if_pos hpe]
  · have h0 : mem p = memB p := h p (by omega)
    by_cases h1e : e ≤ p + 1
    · have h2e : e ≤ p + 2 := by omega
      unfold ExtractRunLength
      simp only [ge_iff_le, h0, h1e, h2e, if_true]
    · have h1 : mem (p + 1) = memB (p + 1) := h (p + 1) (by omega)
      by_cases h2e : e ≤ p + 2
      · unfold ExtractRunLength
        simp only [ge_iff_le, h0, h1, h2e, if_true]
      · have h2 : mem (p + 2) = memB (p + 2) := h (p + 2) (by omega)
        unfold ExtractRunLength
        rw [h0, h1, h2]

/-! ## Claim C3 (corrected) -/

/-- Claim C3 counterexample: the single byte `0x20` is classified as
`REGULAR_FG_RUN` (`0x20 >>> 5 = 1`), not as `REGULAR_BG_RUN` (`0x00`) as
the claim states. -/
theorem extractCodeId_0x20_not_bg_run :
    ExtractCodeId 0x20 = REGULAR_FG_RUN ∧ ExtractCodeId 0x20 ≠ REGULAR_BG_RUN := by
  decide

/-- Claim C3 (amended): for every opcode that requires extension length
bytes (zero-field REGULAR/LITE orders needing 1 extra byte, MEGA orders
needing 2 extra bytes), if any required extension byte would lie at or
beyond `end_of_input`, `ExtractRunLength` fails (returns 0, leaving the
advance unwritten) without reading any byte at or beyond `end_of_input`;
in particular the single byte `0x20` (`REGULAR_FG_RUN` with zero length
field) makes the extraction fail as Truncated. -/
theorem extractRunLength_truncation (code : Nat) (mem memB : Nat → Nat) (p e : Nat) :
    ((∀ a, a < e → mem a = memB a) →
      ExtractRunLength code mem p e = ExtractRunLength code memB p e) ∧
    (e ≤ p → ExtractRunLength code mem p e = (0, none)) ∧
    (p < e → e ≤ p + 1 → mem p % 256 &&& 0x1F = 0 →
      (code = REGULAR_BG_RUN ∨ code = REGULAR_FG_RUN ∨ code = REGULAR_COLOR_RUN ∨
        code = REGULAR_COLOR_IMAGE ∨ code = REGULAR_FGBG_IMAGE) →
      ExtractRunLength code mem p e = (0, none)) ∧
    (p < e → e ≤ p + 1 → mem p % 256 &&& 0x0F = 0 →
      (code = LITE_SET_FG_FG_RUN ∨ code = LITE_DITHERED_RUN ∨
        code = LITE_SET_FG_FGBG_IMAGE) →
      ExtractRunLength code mem p e = (0, none)) ∧
    (p < e → e ≤ p + 2 →
      (code = MEGA_MEGA_BG_RUN ∨ code = MEGA_MEGA_FG_RUN ∨ code = MEGA_MEGA_SET_FG_RUN ∨
        code = MEGA_MEGA_DITHERED_RUN ∨ code = MEGA_MEGA_COLOR_RUN ∨
        code = MEGA_MEGA_FGBG_IMAGE ∨ code = MEGA_MEGA_SET_FGBG_IMAGE ∨
        code = MEGA_MEGA_COLOR_IMAGE) →
      ExtractRunLength code mem p e = (0, none)) ∧
    (ExtractCodeId 0x20 = REGULAR_FG_RUN ∧
      ExtractRunLength (ExtractCodeId 0x20) (fun _ => 0x20) 0 1 = (0, none)) := by
  refine ⟨extractRunLength_agree code mem memB p e, ?_, ?_, ?_, ?_, by decide⟩
  · intro hep
    unfold ExtractRunLength
    rw [if_pos hep]
  · intro hpe h1e hz hc
    rcases hc with hc | hc | hc | hc | hc
    · rw [erl_run_reg code mem p e (Or.inl hc) hpe]
      simp only [g_MaskRegularRunLength]
      rw [if_pos hz, if_pos h1e]
    · rw [erl_run_reg code mem p e (Or.inr (Or.inl hc)) hpe]
      simp only [g_MaskRegularRunLength]
      rw [if_pos hz, if_pos h1e]
    · rw [erl_run_reg code mem p e (Or.inr (Or.inr (Or.inl hc))) hpe]
      simp only [g_MaskRegularRunLength]
      rw [if_pos hz, if_pos h1e]
    · rw [erl_run_reg code mem p e (Or.inr (Or.inr (Or.inr hc))) hpe]
      simp only [g_MaskRegularRunLength]
      rw [if_pos hz, if_pos h1e]
    · subst hc
      rw [erl_fgbg_reg mem p e hpe]
      simp only [g_MaskRegularRunLength]
      rw [if_pos hz, if_pos h1e]
  · intro hpe h1e hz hc
    rcases hc with hc | hc | hc
    · rw [erl_run_lite code mem p e (Or.inl hc) hpe]
      simp only [g_MaskLiteRunLength]
      rw [if_pos hz, if_pos h1e]
    · rw [erl_run_lite code mem p e (Or.inr hc) hpe]
      simp only [g_MaskLiteRunLength]
      rw [if_pos hz, if_pos h1e]
    · subst hc
      rw [erl_fgbg_lite mem p e hpe]
      simp only [g_MaskLiteRunLength]
      rw [if_pos hz, if_pos h1e]
  · intro hpe h2e hc
    rw [erl_mega code mem p e hc hpe, if_pos h2e]

/-- Witness for `extractRunLength_truncation`: a MEGA background-run
header at the end of a two-byte input is truncated (its second length
byte would lie at `end_of_input`). -/
theorem extractRunLength_truncation_witness :
    ExtractRunLength MEGA_MEGA_BG_RUN (fun _ => 0) 0 2 = (0, none) :=
  (extractRunLength_truncation MEGA_MEGA_BG_RUN (fun _ => 0) (fun _ => 0) 0 2).2.2.2.2.1
    (by norm_num) (by norm_num) (Or.inl rfl)
